import Mathlib

/-
Verification development for the adjustment_blending repository (core.py).

The shallow embedding below translates the analysis and blending engine of
core.py into Lean.  Machine floats are modelled by exact rationals (every
literal such as 0.05 becomes 1/20); Blender F-curves are modelled by the
Curve structure, whose evaluation function is the external CurveSource
collaborator's interpolation (spec section 3: the core only calls
evaluate/range and edits keyframe_points; the interpolation itself is not
part of this repository).  A possibly-failing evaluation (the condition a
try/except in core.py guards against) is modelled by the evalOk field;
functions of core.py that call evaluate without a handler use evalVal
directly.  Python's int() truncation toward zero is pyInt, Python range
loops over frames are intRange, and dicts keyed by frames are association
lists built in frame order.
-/

/-- Model of a Blender F-curve as seen by core.py: an evaluation map
(the CurveSource's own interpolation), a success predicate for evaluation
(failures raise in Python), the declared frame range, the keyframe list
(position, value), and the channel identification fields. -/
structure Curve where
  evalVal : ℚ → ℚ
  evalOk : ℚ → Bool
  range : ℚ × ℚ
  keyframe_points : List (ℚ × ℚ)
  data_path : String
  array_index : Int

/-- fcurve.evaluate(frame): some value on success, none when the host
raises (caught by the try/except blocks of core.py). -/
def Curve.evaluate (c : Curve) (f : ℚ) : Option ℚ :=
  if c.evalOk f then some (c.evalVal f) else none

/-- Python int(): truncation toward zero. -/
def pyInt (q : ℚ) : Int :=
  if 0 ≤ q then ⌊q⌋ else ⌈q⌉

/-- Frames a, a+1, ..., a+n-1. -/
def intRangeAux (a : Int) : Nat → List Int
  | 0 => []
  | n + 1 => a :: intRangeAux (a + 1) n

/-- Python range(a, b+1): the integer frames a..b inclusive. -/
def intRange (a b : Int) : List Int :=
  intRangeAux a (b + 1 - a).toNat

/-- First-match association-list lookup (model of a Python dict read). -/
def mapLookup (m : List (Int × ℚ)) (f : Int) : Option ℚ :=
  match m with
  | [] => none
  | (k, v) :: rest => if k = f then some v else mapLookup rest f

/-- MotionAnalyzer.calculate_velocity (core.py lines 35-55): forward
difference when frame <= window, backward difference when
frame >= range()[1] - window, central difference otherwise; any
evaluation failure yields the 0.0 fallback. -/
def calculate_velocity (c : Curve) (frame : ℚ) (window : ℚ := 2) : ℚ :=
  if frame ≤ window then
    match c.evaluate frame, c.evaluate (frame + window) with
    | some val_curr, some val_next => (val_next - val_curr) / window
    | _, _ => 0
  else if c.range.2 - window ≤ frame then
    match c.evaluate (frame - window), c.evaluate frame with
    | some val_prev, some val_curr => (val_curr - val_prev) / window
    | _, _ => 0
  else
    match c.evaluate (frame - window), c.evaluate (frame + window) with
    | some val_prev, some val_next => (val_next - val_prev) / (2 * window)
    | _, _ => 0

/-- MotionAnalyzer.calculate_acceleration (core.py lines 57-65):
velocity-of-velocity over the same window; calculate_velocity is already
total, so the surrounding try/except never fires in the model. -/
def calculate_acceleration (c : Curve) (frame : ℚ) (window : ℚ := 2) : ℚ :=
  (calculate_velocity c (frame + window) window
    - calculate_velocity c (frame - window) window) / (2 * window)

/-- AdjustmentBlendingEngine.lerp (core.py line 793). -/
def lerp (a b factor : ℚ) : ℚ :=
  a + (b - a) * factor

/-- A movement region tuple (start_frame, end_frame, peak energy,
motion type) as produced by detect_movement_regions. -/
structure MRegion where
  start_frame : Int
  end_frame : Int
  peak_energy : ℚ
  motion_type : String
deriving DecidableEq

/-- MotionAnalyzer._classify_motion_type (core.py lines 149-162). -/
def _classify_motion_type (avg_velocity max_energy : ℚ) (duration : Int) : String :=
  if 2 < max_energy then "FAST"
  else if 1/2 < max_energy then
    (if 20 < duration then "SUSTAINED" else "QUICK")
  else if 3/10 < avg_velocity then "SMOOTH"
  else "SLOW"

/-- Loop state of the detect_movement_regions scan: regions emitted so
far, the open region's start (if any), its running peak energy, its
velocity samples and their running mean. -/
structure MRState where
  regions : List MRegion
  openStart : Option Int
  maxE : ℚ
  samples : List ℚ
  avgV : ℚ

/-- One iteration of the frame loop of detect_movement_regions
(core.py lines 91-127). -/
def mrStep (c : Curve) (vt : ℚ) (md : Int) (st : MRState) (frame : Int) : MRState :=
  let velocity := |calculate_velocity c (frame : ℚ) 2|
  let acceleration := |calculate_acceleration c (frame : ℚ) 2|
  let energy := velocity + acceleration * (1/2)
  if vt < energy then
    match st.openStart with
    | none =>
      let samples := [velocity]
      { regions := st.regions, openStart := some frame, maxE := max st.maxE energy,
        samples := samples, avgV := samples.sum / (samples.length : ℚ) }
    | some s =>
      let samples := st.samples ++ [velocity]
      { regions := st.regions, openStart := some s, maxE := max st.maxE energy,
        samples := samples, avgV := samples.sum / (samples.length : ℚ) }
  else
    match st.openStart with
    | some s =>
      if md ≤ frame - s then
        { regions := st.regions ++
            [⟨s, frame - 1, st.maxE, _classify_motion_type st.avgV st.maxE (frame - s)⟩],
          openStart := none, maxE := 0, samples := [], avgV := 0 }
      else
        { regions := st.regions, openStart := none, maxE := 0, samples := [], avgV := 0 }
    | none => st

/-- The uncached scan of MotionAnalyzer.detect_movement_regions
(core.py lines 82-141): the frame loop followed by the close of a region
still open at the final frame. -/
def detect_movement_regions_scan (c : Curve) (vt : ℚ) (md : Int) : List MRegion :=
  let fs := pyInt c.range.1
  let fe := pyInt c.range.2
  let st := (intRange fs fe).foldl (mrStep c vt md) ⟨[], none, 0, [], 0⟩
  match st.openStart with
  | some s =>
    if md ≤ fe - s then
      st.regions ++ [⟨s, fe, st.maxE, _classify_motion_type st.avgV st.maxE (fe - s)⟩]
    else st.regions
  | none => st.regions

/-- The process-wide analysis cache (core.py line 17), modelled as an
association list from (curve identity, velocity_threshold, min_duration)
keys to movement-region lists; insertion conses at the front and lookup
takes the first match, reproducing dict update/read. -/
abbrev AnalysisCache := List ((Nat × ℚ × Int) × List MRegion)

/-- First-match cache lookup. -/
def cacheLookup (cache : AnalysisCache) (k : Nat × ℚ × Int) : Option (List MRegion) :=
  match cache with
  | [] => none
  | (k2, v) :: rest => if k2 = k then some v else cacheLookup rest k

/-- MotionAnalyzer.detect_movement_regions (core.py lines 67-147) with the
cache made explicit: empty keyframe list returns [] before the cache is
consulted; a cache hit returns the stored list; a miss runs the scan and
stores it.  curve_id models Python id(fcurve) (unique per live curve).
The third component counts how many times the underlying scan ran,
the instrumented compute-counter of spec section 8. -/
def detect_movement_regions (cache : AnalysisCache) (curve_id : Nat) (c : Curve)
    (vt : ℚ) (md : Int) : List MRegion × AnalysisCache × Nat :=
  if c.keyframe_points = [] then ([], cache, 0)
  else
    match cacheLookup cache (curve_id, vt, md) with
    | some r => (r, cache, 0)
    | none =>
      let r := detect_movement_regions_scan c vt md
      (r, ((curve_id, vt, md), r) :: cache, 1)

/-- Python str.endswith, computed on the character lists of the two
strings: s ends with suffix when the reversed suffix is a prefix of the
reversed s. -/
def pathEndsWith (s suffix : String) : Bool :=
  List.isPrefixOf suffix.data.reverse s.data.reverse

/-- Insert a rational into an ascending-sorted list. -/
def insertAsc (x : ℚ) : List ℚ → List ℚ
  | [] => [x]
  | y :: rest => if x ≤ y then x :: y :: rest else y :: insertAsc x rest

/-- Ascending insertion sort, the model of Python sorted() on the value
lists used by core.py (only the multiset order of the result matters to
the percentile and median reads). -/
def sortAsc : List ℚ → List ℚ
  | [] => []
  | x :: rest => insertAsc x (sortAsc rest)

/-- The Z-location curve search of detect_contact_phases (core.py lines
173-177): the first curve whose data_path ends in location with
array_index 2. -/
def findZCurve (fcurves : List Curve) : Option Curve :=
  fcurves.find? (fun fc => pathEndsWith fc.data_path "location" && fc.array_index == 2)

/-- Loop state of the contact hysteresis scan: phases emitted so far,
whether a contact is open, and its start frame. -/
structure CPState where
  phases : List (Int × Int)
  inContact : Bool
  contactStart : Option Int

/-- One iteration of the hysteresis loop of detect_contact_phases
(core.py lines 205-222), fed the current frame together with its
precomputed height and absolute vertical velocity. -/
def cpStep (adaptive_threshold stability_threshold : ℚ)
    (st : CPState) (fzv : Int × ℚ × ℚ) : CPState :=
  let frame := fzv.1
  let z_pos := fzv.2.1
  let z_vel := fzv.2.2
  let is_near_ground := z_pos ≤ adaptive_threshold
  let is_stable := z_vel < stability_threshold
  if is_near_ground ∧ is_stable then
    if st.inContact then st
    else { phases := st.phases, inContact := true, contactStart := some frame }
  else
    if st.inContact ∧ (stability_threshold * 2 < z_vel ∨ adaptive_threshold * (3/2) < z_pos) then
      match st.contactStart with
      | some s =>
        { phases := st.phases ++ [(s, frame - 1)], inContact := false, contactStart := some s }
      | none => { phases := st.phases, inContact := false, contactStart := none }
    else st

/-- The hysteresis-produced candidate contact phases of
detect_contact_phases (core.py lines 182-226): adaptive ground level at
the 25th percentile of the sampled heights, enter on near-ground and
stable, exit on the hysteresis condition, close an open contact at the
final frame.  This is the list the duration filter is applied to. -/
def contactCandidates (z_curve : Curve) (ground_threshold stability_threshold : ℚ) :
    List (Int × Int) :=
  let frame_start := pyInt z_curve.range.1
  let frame_end := pyInt z_curve.range.2
  let frames := intRange frame_start frame_end
  let z_positions := frames.map (fun f => z_curve.evalVal (f : ℚ))
  let samples : List (Int × ℚ × ℚ) := frames.map (fun f =>
    (f, z_curve.evalVal (f : ℚ), |calculate_velocity z_curve (f : ℚ) 2|))
  let sorted_z := sortAsc z_positions
  let ground_level := sorted_z.getD (sorted_z.length / 4) 0
  let adaptive_threshold := ground_level + ground_threshold
  let st := samples.foldl (cpStep adaptive_threshold stability_threshold)
    ⟨[], false, none⟩
  if st.inContact then
    match st.contactStart with
    | some s => st.phases ++ [(s, frame_end)]
    | none => st.phases
  else st.phases

/-- MotionAnalyzer.detect_contact_phases (core.py lines 164-233):
guards (fewer than 3 curves, no Z curve), then the candidate scan, then
the duration filter end - start >= 3. -/
def detect_contact_phases (fcurves : List Curve)
    (ground_threshold : ℚ := 1/20) (stability_threshold : ℚ := 1/50) :
    List (Int × Int) :=
  if fcurves.length < 3 then []
  else
    match findZCurve fcurves with
    | none => []
    | some z_curve =>
      (contactCandidates z_curve ground_threshold stability_threshold).filter
        (fun p => 3 ≤ p.2 - p.1)

/-- The X/Y/Z triple search of detect_foot_sliding (core.py lines
243-255). -/
def findAxisCurve (fcurves : List Curve) (idx : Int) : Option Curve :=
  fcurves.find? (fun fc => pathEndsWith fc.data_path "location" && fc.array_index == idx)

/-- Horizontal displacement and peak horizontal velocity of one contact
phase (core.py lines 263-278). -/
def phaseSlidingStats (x_curve y_curve : Curve) (phase_start phase_end : Int) : ℚ × ℚ :=
  (intRange phase_start phase_end).foldl
    (fun acc frame =>
      let x_vel := |calculate_velocity x_curve (frame : ℚ) 2|
      let y_vel := |calculate_velocity y_curve (frame : ℚ) 2|
      let frame_h_vel := max x_vel y_vel
      let maxv := max acc.2 frame_h_vel
      let movement :=
        if frame < phase_end then
          let x_delta := |x_curve.evalVal ((frame : ℚ) + 1) - x_curve.evalVal (frame : ℚ)|
          let y_delta := |y_curve.evalVal ((frame : ℚ) + 1) - y_curve.evalVal (frame : ℚ)|
          acc.1 + max x_delta y_delta
        else acc.1
      (movement, maxv))
    (0, 0)

/-- MotionAnalyzer.detect_foot_sliding (core.py lines 235-292): per
contact phase, flag every frame of the phase when the accumulated
horizontal movement or the peak horizontal velocity exceeds its
sensitivity-scaled adaptive threshold. -/
def detect_foot_sliding (foot_fcurves : List Curve) (sensitivity : ℚ := 1) : List Int :=
  if foot_fcurves.length < 3 then []
  else
    match findAxisCurve foot_fcurves 0, findAxisCurve foot_fcurves 1,
        findAxisCurve foot_fcurves 2 with
    | some x_curve, some y_curve, some _ =>
      let contact_phases := detect_contact_phases foot_fcurves
      contact_phases.foldl
        (fun sliding_frames phase =>
          let stats := phaseSlidingStats x_curve y_curve phase.1 phase.2
          let phase_duration : Int := phase.2 - phase.1 + 1
          let movement_threshold := (1/50 + (phase_duration : ℚ) * (1/200)) / sensitivity
          let velocity_threshold := (3/100 + (phase_duration : ℚ) * (1/500)) / sensitivity
          if movement_threshold < stats.1 ∨ velocity_threshold < stats.2 then
            sliding_frames ++ intRange phase.1 phase.2
          else sliding_frames)
        []
    | _, _, _ => []

/-- The motion-type multiplier table of _calculate_velocity_weight
(core.py lines 593-601), with the dict.get default 1.0. -/
def typeMultiplier (motion_type : String) : ℚ :=
  if motion_type = "FAST" then 6/5
  else if motion_type = "SUSTAINED" then 1
  else if motion_type = "QUICK" then 9/10
  else if motion_type = "SMOOTH" then 4/5
  else if motion_type = "SLOW" then 3/5
  else 1

/-- AdjustmentBlendingEngine._calculate_velocity_weight (core.py lines
584-607): the first movement region containing the frame yields
min(1, max(0.1, min(1, energy/2) * type multiplier * energy
preservation)); a frame outside every region yields 0.05. -/
def _calculate_velocity_weight (frame : Int) (movement_regions : List MRegion)
    (energy_preservation : ℚ) : ℚ :=
  match movement_regions with
  | [] => 1/20
  | r :: rest =>
    if r.start_frame ≤ frame ∧ frame ≤ r.end_frame then
      let base_weight := min 1 (r.peak_energy / 2)
      let type_weight := typeMultiplier r.motion_type
      let final_weight := base_weight * type_weight * energy_preservation
      min 1 (max (1/10) final_weight)
    else _calculate_velocity_weight frame rest energy_preservation

/-- AdjustmentBlendingEngine.apply_velocity_aware_blend (core.py lines
544-582).  The movement regions of the base curve are obtained through
the cache in core.py; the cache is observationally transparent (theorem
cache_correctness below), so the scan is called directly here. -/
def apply_velocity_aware_blend (base_fcurve adjustment_fcurve : Option Curve)
    (influence : ℚ := 1) (energy_preservation : ℚ := 4/5)
    (contact_frames : List Int := []) : Option (List (Int × ℚ)) :=
  match base_fcurve, adjustment_fcurve with
  | some base, some adj =>
    let frame_start := pyInt (min base.range.1 adj.range.1)
    let frame_end := pyInt (max base.range.2 adj.range.2)
    let movement_regions := detect_movement_regions_scan base (1/10) 3
    some ((intRange frame_start frame_end).map (fun (frame : Int) =>
      let base_value := base.evalVal (frame : ℚ)
      let adj_value := adj.evalVal (frame : ℚ)
      let velocity_weight := _calculate_velocity_weight frame movement_regions
        energy_preservation
      let contact_mask : ℚ :=
        if contact_frames ≠ [] ∧ frame ∈ contact_frames then 1/10 else 1
      let adjustment := adj_value - base_value
      (frame, base_value + adjustment * velocity_weight * contact_mask * influence)))
  | _, _ => none

/-- One adjustment-layer dict of apply_layered_adjustments, with the
fields core.py reads through layer_data.get. -/
structure Layer where
  active : Bool
  fcurve : Option Curve
  blend_mode : String
  influence : ℚ
  contact_frames : List Int
  energy_preservation : ℚ

/-- The per-layer body of the frame loop of apply_layered_adjustments
(core.py lines 626-667): inactive or source-less layers are skipped, and
the current value is updated according to the blend-mode string (an
unrecognised mode falls through unchanged). -/
def blendStep (base : Curve) (global_influence : ℚ) (frame : Int)
    (current_value : ℚ) (layer_data : Layer) : ℚ :=
  if layer_data.active = false then current_value
  else
    match layer_data.fcurve with
    | none => current_value
    | some layer_fcurve =>
      let blend_mode := layer_data.blend_mode
      let influence := layer_data.influence * global_influence
      if blend_mode = "OVERLAY" then
        match apply_velocity_aware_blend (some base) (some layer_fcurve) influence
            layer_data.energy_preservation layer_data.contact_frames with
        | some blend_result =>
          match mapLookup blend_result frame with
          | some v => v
          | none => current_value
        | none => current_value
      else if blend_mode = "ADD" then
        let layer_value := layer_fcurve.evalVal (frame : ℚ)
        current_value + (layer_value - base.evalVal (frame : ℚ)) * influence
      else if blend_mode = "MULTIPLY" then
        let layer_value := layer_fcurve.evalVal (frame : ℚ)
        current_value * (1 + (layer_value - 1) * influence)
      else if blend_mode = "REPLACE" then
        let layer_value := layer_fcurve.evalVal (frame : ℚ)
        lerp current_value layer_value influence
      else if blend_mode = "SUBTRACT" then
        let layer_value := layer_fcurve.evalVal (frame : ℚ)
        current_value - (layer_value - base.evalVal (frame : ℚ)) * influence
      else if blend_mode = "SCREEN" then
        let layer_value := layer_fcurve.evalVal (frame : ℚ)
        1 - (1 - current_value) * (1 - layer_value * influence)
      else current_value

/-- AdjustmentBlendingEngine.apply_layered_adjustments (core.py lines
609-671): None on a missing base curve or an empty layer stack,
otherwise the per-frame fold of the layer stack over the base curve's
own range. -/
def apply_layered_adjustments (base_fcurve : Option Curve)
    (adjustment_layers : List Layer) (global_influence : ℚ := 1) :
    Option (List (Int × ℚ)) :=
  match base_fcurve with
  | none => none
  | some base =>
    if adjustment_layers.isEmpty then none
    else
      let frame_start := pyInt base.range.1
      let frame_end := pyInt base.range.2
      some ((intRange frame_start frame_end).map (fun (frame : Int) =>
        (frame, adjustment_layers.foldl (blendStep base global_influence frame)
          (base.evalVal (frame : ℚ)))))

/-- AdjustmentBlendingEngine._group_sliding_frames (core.py lines
712-730): maximal runs of consecutive frames. -/
def groupAux (current_start current_end : Int) : List Int → List (Int × Int)
  | [] => [(current_start, current_end)]
  | frame :: rest =>
    if frame = current_end + 1 then groupAux current_start frame rest
    else (current_start, current_end) :: groupAux frame frame rest

/-- Entry point of _group_sliding_frames. -/
def _group_sliding_frames : List Int → List (Int × Int)
  | [] => []
  | frame :: rest => groupAux frame frame rest

/-- The stable target position of _fix_contact_phase (core.py lines
737-746): the (upper) median of the in-phase samples under
preserve-flow, their mean otherwise. -/
def stable_position (fcurve : Curve) (phase_start phase_end : Int)
    (preserve_flow : Bool) : ℚ :=
  let positions := (intRange phase_start phase_end).map
    (fun f => fcurve.evalVal (f : ℚ))
  if preserve_flow then (sortAsc positions).getD (positions.length / 2) 0
  else positions.sum / (positions.length : ℚ)

/-- The graduated per-frame influence of _fix_contact_phase (core.py
lines 749-759): distance from the phase's temporal center over the half
duration, scaled by 0.5. -/
def graduated_influence (influence : ℚ) (phase_start phase_end frame : Int) : ℚ :=
  let phase_duration : Int := phase_end - phase_start + 1
  let phase_center : ℚ := ((phase_start : ℚ) + (phase_end : ℚ)) / 2
  let distance_from_center := |(frame : ℚ) - phase_center|
  let max_distance : ℚ := (phase_duration : ℚ) / 2
  if 0 < max_distance then influence * (1 - distance_from_center / max_distance * (1/2))
  else influence

/-- The keyframe search-and-write of _apply_keyframe_fix (core.py lines
773-781): overwrite the value of the first keyframe within 0.5 frames,
keeping its position. -/
def replaceFirstKF (frame new_value : ℚ) : List (ℚ × ℚ) → List (ℚ × ℚ)
  | [] => []
  | kf :: rest =>
    if |kf.1 - frame| < 1/2 then (kf.1, new_value) :: rest
    else kf :: replaceFirstKF frame new_value rest

/-- keyframe_points.insert: a new keyframe placed in ascending position
order. -/
def insertSortedKF (frame new_value : ℚ) : List (ℚ × ℚ) → List (ℚ × ℚ)
  | [] => [(frame, new_value)]
  | kf :: rest =>
    if frame < kf.1 then (frame, new_value) :: kf :: rest
    else kf :: insertSortedKF frame new_value rest

/-- AdjustmentBlendingEngine._apply_keyframe_fix (core.py lines 766-781):
lerp the curve's current value toward the target and upsert it at the
frame with the 0.5-frame tolerance. -/
def _apply_keyframe_fix (fcurve : Curve) (frame target_value influence : ℚ) : Curve :=
  let current_value := fcurve.evalVal frame
  let new_value := lerp current_value target_value influence
  if fcurve.keyframe_points.any (fun kf => |kf.1 - frame| < 1/2) then
    { fcurve with keyframe_points := replaceFirstKF frame new_value fcurve.keyframe_points }
  else
    { fcurve with keyframe_points := insertSortedKF frame new_value fcurve.keyframe_points }

/-- The per-curve part of AdjustmentBlendingEngine._fix_contact_phase
(core.py lines 732-764): the stable position is computed from the
evaluated in-phase samples, then every frame of the phase is written
with its graduated influence. -/
def _fix_contact_phase_curve (fcurve : Curve) (phase_start phase_end : Int)
    (influence : ℚ) (preserve_flow : Bool) : Curve :=
  let stable := stable_position fcurve phase_start phase_end preserve_flow
  (intRange phase_start phase_end).foldl
    (fun c (frame : Int) => _apply_keyframe_fix c (frame : ℚ) stable
      (graduated_influence influence phase_start phase_end frame))
    fcurve

/-- All contact phases applied to one curve, in order.  core.py iterates
phases in the outer loop and curves in the inner loop; the curves are
mutated independently (each phase only reads and writes the one curve it
is fixing), so the iteration order commutes and the per-curve fold below
is the same function. -/
def fixPhasesCurve (phases : List (Int × Int)) (fcurve : Curve)
    (influence : ℚ) (preserve_flow : Bool) : Curve :=
  phases.foldl
    (fun c p => _fix_contact_phase_curve c p.1 p.2 influence preserve_flow)
    fcurve

/-- The horizontal-curve test of fix_foot_sliding_professional (core.py
lines 688-691): a location curve on the X or Y axis. -/
def isHorizontal (fcurve : Curve) : Bool :=
  pathEndsWith fcurve.data_path "location" &&
    (fcurve.array_index == 0 || fcurve.array_index == 1)

/-- AdjustmentBlendingEngine.fix_foot_sliding_professional (core.py lines
673-710): False on missing curves, missing sliding frames or no
horizontal curve; otherwise every horizontal curve receives the phase
fixes and the call reports success.  The second component is the curve
list after the in-place mutations. -/
def fix_foot_sliding_professional (foot_fcurves : List Curve) (sliding_frames : List Int)
    (influence : ℚ := 1) (preserve_motion_flow : Bool := true) : Bool × List Curve :=
  if foot_fcurves.isEmpty || sliding_frames.isEmpty then (false, foot_fcurves)
  else
    let contact_phases := _group_sliding_frames sliding_frames
    let horizontal_curves := foot_fcurves.filter isHorizontal
    if horizontal_curves.isEmpty then (false, foot_fcurves)
    else
      (true, foot_fcurves.map (fun c =>
        if isHorizontal c then fixPhasesCurve contact_phases c influence preserve_motion_flow
        else c))

/-- AdjustmentBlendingEngine.smooth_lerp (core.py lines 798-803). -/
def smooth_lerp (a b factor : ℚ) : ℚ :=
  let smooth_factor := factor * factor * (3 - 2 * factor)
  a + (b - a) * smooth_factor

/-- The value of the first keyframe within 0.5 frames of the given
frame, the read counterpart of the upsert tolerance (spec section 6:
upsert matches an existing sample within 0.5 frames). -/
def findKF (frame : ℚ) : List (ℚ × ℚ) → Option ℚ
  | [] => none
  | kf :: rest => if |kf.1 - frame| < 1/2 then some kf.2 else findKF frame rest

/-- The value held by a curve's keyframe at a frame, with the same
0.5-frame tolerance the write-back uses. -/
def kfValueAt (fcurve : Curve) (frame : ℚ) : Option ℚ :=
  findKF frame fcurve.keyframe_points

/-- Movement regions in scan order: strictly separated, each ending
before the next starts. -/
def RegionsSeparated (regions : List MRegion) : Prop :=
  List.Pairwise (fun r1 r2 => r1.end_frame < r2.start_frame) regions

/-- Contact phases in order with at least one non-sliding frame between
consecutive phases (maximal runs). -/
def PhasesSeparated (phases : List (Int × Int)) : Prop :=
  List.Pairwise (fun p q => p.2 + 1 < q.1) phases

/-- Invariant of the movement-region scan when the frame pos is about to
be processed: the emitted regions are separated; they all end before the
open region's start, or before pos when no region is open; and an open
region started at or before the previous frame. -/
def MRInv (pos : Int) (st : MRState) : Prop :=
  RegionsSeparated st.regions ∧
  (∀ s, st.openStart = some s → (∀ r ∈ st.regions, r.end_frame < s) ∧ s ≤ pos) ∧
  (st.openStart = none → ∀ r ∈ st.regions, r.end_frame < pos)

/-- Constant curve at value 2 on the single frame 0, the base curve of
the blend-mode arithmetic checks. -/
def cBase1 : Curve :=
  { evalVal := fun _ => 2, evalOk := fun _ => true, range := (0, 0),
    keyframe_points := [(0, 2)], data_path := "location", array_index := 0 }

/-- Constant curve at value 3, the layer curve of the blend-mode
arithmetic checks. -/
def cLayer1 : Curve :=
  { evalVal := fun _ => 3, evalOk := fun _ => true, range := (0, 0),
    keyframe_points := [(0, 3)], data_path := "location", array_index := 0 }

/-- An active layer over cLayer1 with a given blend mode and influence. -/
def mkLayer1 (mode : String) (infl : ℚ) : Layer :=
  { active := true, fcurve := some cLayer1, blend_mode := mode, influence := infl,
    contact_frames := [], energy_preservation := 4/5 }

/-- An inactive layer (skipped by the stack fold). -/
def skipLayer : Layer :=
  { active := false, fcurve := some cLayer1, blend_mode := "ADD", influence := 1,
    contact_frames := [], energy_preservation := 4/5 }

/-- The square curve on range [0, 10]: witnesses that the velocity branch
choice ignores the curve's own start. -/
def cSq : Curve :=
  { evalVal := fun q => q * q, evalOk := fun _ => true, range := (0, 10),
    keyframe_points := [(0, 0), (10, 100)], data_path := "location", array_index := 0 }

/-- A curve that always fails to evaluate. -/
def cFail : Curve :=
  { evalVal := fun _ => 0, evalOk := fun _ => false, range := (0, 10),
    keyframe_points := [(0, 0)], data_path := "location", array_index := 0 }

/-- X-axis companion curve for the contact-phase counterexample. -/
def cx4 : Curve :=
  { evalVal := fun _ => 0, evalOk := fun _ => true, range := (0, 12),
    keyframe_points := [(0, 0)], data_path := "location", array_index := 0 }

/-- Y-axis companion curve for the contact-phase counterexample. -/
def cy4 : Curve :=
  { evalVal := fun _ => 0, evalOk := fun _ => true, range := (0, 12),
    keyframe_points := [(0, 0)], data_path := "location", array_index := 1 }

/-- Z-axis height curve on [0, 12]: high, steep descent to a ground
plateau over frames 4..9, then a steep ascent.  Its hysteresis candidate
contact phase is exactly (6, 8), spanning three frames. -/
def cz4 : Curve :=
  { evalVal := fun q =>
      if q = 0 then 1 else if q = 1 then 1
      else if q = 2 then 1/2 else if q = 3 then 1/5
      else if q = 10 then 3/50
      else if q = 11 then 1 else if q = 12 then 1
      else 0,
    evalOk := fun _ => true, range := (0, 12),
    keyframe_points := [(0, 1), (12, 1)], data_path := "location", array_index := 2 }

/-- Curve with a nonempty keyframe list for the cache theorems. -/
def cMR : Curve :=
  { evalVal := fun _ => 0, evalOk := fun _ => true, range := (0, 2),
    keyframe_points := [(0, 0)], data_path := "location", array_index := 0 }

/-- Curve with an empty keyframe list for the empty-curve guard. -/
def cNoKF : Curve :=
  { evalVal := fun _ => 0, evalOk := fun _ => true, range := (0, 2),
    keyframe_points := [], data_path := "location", array_index := 0 }

/-- Horizontal curve with jittery values 0, 10, 1 keyed on frames
0, 1, 2: the foot-sliding-fix counterexample curve. -/
def cKF7 : Curve :=
  { evalVal := fun q => if q = 0 then 0 else if q = 1 then 10 else if q = 2 then 1 else 0,
    evalOk := fun _ => true, range := (0, 2),
    keyframe_points := [(0, 0), (1, 10), (2, 1)], data_path := "location", array_index := 0 }

theorem intRangeAux_mem {x a : Int} {n : Nat} :
    x ∈ intRangeAux a n ↔ a ≤ x ∧ x < a + n := by
  induction n generalizing a with
  | zero => simp [intRangeAux]
  | succ n ih =>
    simp [intRangeAux, ih]
    omega

theorem mapLookup_intRangeAux (g : Int → ℚ) (a : Int) (n : Nat) (f : Int)
    (h1 : a ≤ f) (h2 : f < a + n) :
    mapLookup ((intRangeAux a n).map (fun k => (k, g k))) f = some (g f) := by
  induction n generalizing a with
  | zero => omega
  | succ n ih =>
    simp only [intRangeAux, List.map_cons, mapLookup]
    by_cases haf : a = f
    · subst haf; simp
    · rw [if_neg haf]
      exact ih (a + 1) (by omega) (by omega)

theorem mapLookup_intRange (g : Int → ℚ) (fs fe f : Int)
    (h1 : fs ≤ f) (h2 : f ≤ fe) :
    mapLookup ((intRange fs fe).map (fun k => (k, g k))) f = some (g f) := by
  apply mapLookup_intRangeAux g fs _ f h1
  have ht : ((fe + 1 - fs).toNat : Int) = fe + 1 - fs := Int.toNat_of_nonneg (by omega)
  omega

theorem blendStep_skip (base : Curve) (gi : ℚ) (f : Int) (v : ℚ) (ld : Layer)
    (h : ld.active = false ∨ ld.fcurve = none) :
    blendStep base gi f v ld = v := by
  rcases h with h | h
  · simp [blendStep, h]
  · simp [blendStep, h]

theorem foldl_blendStep_skip (base : Curve) (gi : ℚ) (f : Int) (v : ℚ)
    (layers : List Layer) (h : ∀ ld ∈ layers, ld.active = false ∨ ld.fcurve = none) :
    layers.foldl (blendStep base gi f) v = v := by
  induction layers generalizing v with
  | nil => rfl
  | cons ld rest ih =>
    simp only [List.foldl_cons]
    rw [blendStep_skip base gi f v ld (h ld (by simp))]
    exact ih v (fun x hx => h x (List.mem_cons_of_mem ld hx))

/-- C1 counterexample: with base(f)=2, layer(f)=3 and effective influence
0.5, the MULTIPLY mode of apply_layered_adjustments yields 4.0 (per its
literal formula 2*(1+(3-1)*0.5)), not the 2.5 the claim states. -/
theorem blend_multiply_counterexample :
    apply_layered_adjustments (some cBase1) [mkLayer1 "MULTIPLY" (1/2)] 1
      = some [(0, 4)] ∧ (4 : ℚ) ≠ 5/2 := by
  constructor
  · norm_num +decide [apply_layered_adjustments, cBase1, cLayer1, mkLayer1, blendStep,
      pyInt, intRange, intRangeAux, lerp]
  · norm_num

/-- C1 (amended): for base(f)=2, layer(f)=3, layered_adjustments yields
2.5 under ADD, 1.5 under SUBTRACT, 2.5 under REPLACE and 4.0 under
MULTIPLY at influence 0.5, and every mode agrees with its literal formula
at each influence in {0, 0.5, 1}: ADD gives 2+(3-2)*i, SUBTRACT gives
2-(3-2)*i, REPLACE gives lerp(2,3,i)=2+i, MULTIPLY gives 2*(1+(3-1)*i). -/
theorem blend_mode_arithmetic :
    (apply_layered_adjustments (some cBase1) [mkLayer1 "ADD" 0] 1 = some [(0, 2)] ∧
     apply_layered_adjustments (some cBase1) [mkLayer1 "ADD" (1/2)] 1 = some [(0, 5/2)] ∧
     apply_layered_adjustments (some cBase1) [mkLayer1 "ADD" 1] 1 = some [(0, 3)]) ∧
    (apply_layered_adjustments (some cBase1) [mkLayer1 "SUBTRACT" 0] 1 = some [(0, 2)] ∧
     apply_layered_adjustments (some cBase1) [mkLayer1 "SUBTRACT" (1/2)] 1 = some [(0, 3/2)] ∧
     apply_layered_adjustments (some cBase1) [mkLayer1 "SUBTRACT" 1] 1 = some [(0, 1)]) ∧
    (apply_layered_adjustments (some cBase1) [mkLayer1 "REPLACE" 0] 1 = some [(0, lerp 2 3 0)] ∧
     apply_layered_adjustments (some cBase1) [mkLayer1 "REPLACE" (1/2)] 1 = some [(0, lerp 2 3 (1/2))] ∧
     apply_layered_adjustments (some cBase1) [mkLayer1 "REPLACE" 1] 1 = some [(0, lerp 2 3 1)]) ∧
    (apply_layered_adjustments (some cBase1) [mkLayer1 "MULTIPLY" 0] 1 = some [(0, 2 * (1 + (3 - 1) * 0))] ∧
     apply_layered_adjustments (some cBase1) [mkLayer1 "MULTIPLY" (1/2)] 1 = some [(0, 2 * (1 + (3 - 1) * (1/2)))] ∧
     apply_layered_adjustments (some cBase1) [mkLayer1 "MULTIPLY" 1] 1 = some [(0, 2 * (1 + (3 - 1) * 1))]) := by
  norm_num +decide [apply_layered_adjustments, cBase1, cLayer1, mkLayer1, blendStep,
    pyInt, intRange, intRangeAux, lerp]

/-- C2 counterexample: with an empty layer stack, apply_layered_adjustments
returns None (the unavailable result), not the base curve's own evaluated
values. -/
theorem layered_empty_counterexample :
    apply_layered_adjustments (some cBase1) [] 1 = none ∧
    apply_layered_adjustments (some cBase1) [] 1 ≠ some [(0, cBase1.evalVal 0)] := by
  refine ⟨rfl, ?_⟩
  intro h
  exact Option.noConfusion h

/-- C2 (amended): an empty layer stack makes apply_layered_adjustments
return None; the identity behaviour holds instead for a non-empty stack
in which every layer is skipped (inactive or without a source curve):
then every frame of the base range maps to the base curve's own value. -/
theorem layered_adjustments_empty_and_skipped :
    (∀ (b : Curve) (gi : ℚ), apply_layered_adjustments (some b) [] gi = none) ∧
    (∀ (b : Curve) (layers : List Layer) (gi : ℚ) (f : Int),
      layers ≠ [] →
      (∀ ld ∈ layers, ld.active = false ∨ ld.fcurve = none) →
      pyInt b.range.1 ≤ f → f ≤ pyInt b.range.2 →
      ∃ m, apply_layered_adjustments (some b) layers gi = some m ∧
        mapLookup m f = some (b.evalVal (f : ℚ))) := by
  constructor
  · intro b gi; rfl
  · intro b layers gi f hne hskip h1 h2
    cases layers with
    | nil => exact absurd rfl hne
    | cons ld rest =>
      refine ⟨(intRange (pyInt b.range.1) (pyInt b.range.2)).map
        (fun frame => (frame,
          List.foldl (blendStep b gi frame) (b.evalVal (frame : ℚ)) (ld :: rest))),
        rfl, ?_⟩
      rw [mapLookup_intRange
        (fun k => List.foldl (blendStep b gi k) (b.evalVal (k : ℚ)) (ld :: rest))
        _ _ f h1 h2]
      rw [foldl_blendStep_skip b gi f (b.evalVal (f : ℚ)) (ld :: rest) hskip]

/-- Witness for the skipped-stack half of C2 at a concrete input. -/
theorem layered_adjustments_skipped_witness :
    ∃ m, apply_layered_adjustments (some cBase1) [skipLayer] 1 = some m ∧
      mapLookup m 0 = some (cBase1.evalVal (0 : ℚ)) :=
  layered_adjustments_empty_and_skipped.2 cBase1 [skipLayer] 1 0
    (by simp)
    (by intro ld hld; rw [List.mem_singleton] at hld; subst hld; exact Or.inl rfl)
    (by norm_num [cBase1, pyInt]) (by norm_num [cBase1, pyInt])

/-- C3 counterexample: for the square curve on range [0, 10] at frame 2
with window 2, both frame-window=0 and frame+window=4 lie inside the
valid range, yet calculate_velocity returns the forward difference 6,
not the central difference 4. -/
theorem velocity_central_counterexample :
    calculate_velocity cSq 2 2 = 6 ∧
    cSq.range.1 ≤ 2 - 2 ∧ 2 + 2 ≤ cSq.range.2 ∧
    (cSq.evalVal (2 + 2) - cSq.evalVal (2 - 2)) / (2 * 2) = 4 ∧
    (6 : ℚ) ≠ 4 := by
  norm_num [calculate_velocity, cSq, Curve.evaluate]

/-- C3 (amended): when every evaluation succeeds, calculate_velocity
returns the forward difference when frame <= window, the backward
difference when frame >= range end - window, and otherwise the central
difference; the branch choice compares the absolute frame number against
the window and the range's upper end, not against the range's start. -/
theorem calculate_velocity_branches (c : Curve) (f w : ℚ)
    (hok : ∀ x, c.evalOk x = true) :
    calculate_velocity c f w =
      if f ≤ w then (c.evalVal (f + w) - c.evalVal f) / w
      else if c.range.2 - w ≤ f then (c.evalVal f - c.evalVal (f - w)) / w
      else (c.evalVal (f + w) - c.evalVal (f - w)) / (2 * w) := by
  have he : ∀ x, c.evaluate x = some (c.evalVal x) := fun x => by
    simp [Curve.evaluate, hok x]
  simp only [calculate_velocity, he]

/-- Witness for the amended C3 at a concrete central-branch input. -/
theorem calculate_velocity_branches_witness :
    calculate_velocity cSq 5 2 =
      if (5 : ℚ) ≤ 2 then (cSq.evalVal (5 + 2) - cSq.evalVal 5) / 2
      else if cSq.range.2 - 2 ≤ 5 then (cSq.evalVal 5 - cSq.evalVal (5 - 2)) / 2
      else (cSq.evalVal (5 + 2) - cSq.evalVal (5 - 2)) / (2 * 2) :=
  calculate_velocity_branches cSq 5 2 (fun _ => rfl)

/-- C6: every insufficient-input case is detected up front and returns
the explicit unavailable result: fewer than 3 curves gives [] from
detect_contact_phases and detect_foot_sliding, a missing base curve or
an empty layer stack gives None from apply_layered_adjustments, and no
curves or no sliding frames gives False from
fix_foot_sliding_professional, none of them raising. -/
theorem insufficient_input_guards :
    (∀ (fcurves : List Curve) (gt st : ℚ), fcurves.length < 3 →
        detect_contact_phases fcurves gt st = []) ∧
    (∀ (fcurves : List Curve) (sens : ℚ), fcurves.length < 3 →
        detect_foot_sliding fcurves sens = []) ∧
    (∀ (layers : List Layer) (gi : ℚ), apply_layered_adjustments none layers gi = none) ∧
    (∀ (b : Option Curve) (gi : ℚ), apply_layered_adjustments b [] gi = none) ∧
    (∀ (sf : List Int) (infl : ℚ) (pmf : Bool),
        fix_foot_sliding_professional [] sf infl pmf = (false, [])) ∧
    (∀ (fcs : List Curve) (infl : ℚ) (pmf : Bool),
        fix_foot_sliding_professional fcs [] infl pmf = (false, fcs)) := by
  refine ⟨?_, ?_, ?_, ?_, ?_, ?_⟩
  · intro fcurves gt st h
    simp [detect_contact_phases, h]
  · intro fcurves sens h
    simp [detect_foot_sliding, h]
  · intro layers gi; rfl
  · intro b gi
    cases b with
    | none => rfl
    | some base => rfl
  · intro sf infl pmf
    simp [fix_foot_sliding_professional]
  · intro fcs infl pmf
    simp [fix_foot_sliding_professional]

/-- Witness for C6 at concrete insufficient inputs. -/
theorem insufficient_input_guards_witness :
    detect_contact_phases [cx4] (1/20) (1/50) = [] ∧
    detect_foot_sliding [cx4] 1 = [] ∧
    apply_layered_adjustments none [skipLayer] 1 = none ∧
    apply_layered_adjustments (some cBase1) [] 1 = none ∧
    fix_foot_sliding_professional [] [0] 1 true = (false, []) ∧
    fix_foot_sliding_professional [cx4] [] 1 true = (false, [cx4]) :=
  ⟨insufficient_input_guards.1 [cx4] (1/20) (1/50) (by simp),
   insufficient_input_guards.2.1 [cx4] 1 (by simp),
   insufficient_input_guards.2.2.1 [skipLayer] 1,
   insufficient_input_guards.2.2.2.1 (some cBase1) 1,
   insufficient_input_guards.2.2.2.2.1 [0] 1 true,
   insufficient_input_guards.2.2.2.2.2 [cx4] 1 true⟩

/-- C8: calculate_velocity and calculate_acceleration are total (the
model returns a rational for every curve, frame and window, however
negative or huge), and whenever the underlying curve evaluation fails
the try/except fallback makes both return exactly 0.0. -/
theorem velocity_acceleration_fail_soft (c : Curve) (f w : ℚ)
    (hfail : ∀ x, c.evalOk x = false) :
    calculate_velocity c f w = 0 ∧ calculate_acceleration c f w = 0 := by
  have he : ∀ x, c.evaluate x = none := fun x => by
    simp [Curve.evaluate, hfail x]
  have hv : ∀ a b : ℚ, calculate_velocity c a b = 0 := by
    intro a b
    simp [calculate_velocity, he]
  exact ⟨hv f w, by simp [calculate_acceleration, hv]⟩

/-- Witness for C8 at a failing curve and frames far outside any range. -/
theorem velocity_acceleration_fail_soft_witness :
    calculate_velocity cFail (-(10 ^ 30)) 2 = 0 ∧
    calculate_acceleration cFail (10 ^ 30) 2 = 0 :=
  ⟨(velocity_acceleration_fail_soft cFail (-(10 ^ 30)) 2 (fun _ => rfl)).1,
   (velocity_acceleration_fail_soft cFail (10 ^ 30) 2 (fun _ => rfl)).2⟩

/-- C9: starting from any cache with no entry for the key, the first
detect_movement_regions call returns exactly the uncached scan's result,
and the second call with the identical key returns the identical result
while running the underlying scan zero times. -/
theorem cache_correctness (cache : AnalysisCache) (curve_id : Nat) (c : Curve)
    (vt : ℚ) (md : Int) (hkf : c.keyframe_points ≠ [])
    (hmiss : cacheLookup cache (curve_id, vt, md) = none) :
    (detect_movement_regions cache curve_id c vt md).1
      = detect_movement_regions_scan c vt md ∧
    (detect_movement_regions (detect_movement_regions cache curve_id c vt md).2.1
        curve_id c vt md).1
      = (detect_movement_regions cache curve_id c vt md).1 ∧
    (detect_movement_regions (detect_movement_regions cache curve_id c vt md).2.1
        curve_id c vt md).2.2 = 0 := by
  have h1 : detect_movement_regions cache curve_id c vt md
      = (detect_movement_regions_scan c vt md,
         ((curve_id, vt, md), detect_movement_regions_scan c vt md) :: cache, 1) := by
    simp [detect_movement_regions, hkf, hmiss]
  have h2 : cacheLookup
      (((curve_id, vt, md), detect_movement_regions_scan c vt md) :: cache)
      (curve_id, vt, md) = some (detect_movement_regions_scan c vt md) := by
    simp [cacheLookup]
  rw [h1]
  simp [detect_movement_regions, hkf, h2]

/-- Witness for C9 at a concrete curve and the empty cache. -/
theorem cache_correctness_witness :
    (detect_movement_regions [] 1 cMR (1/10) 3).1
      = detect_movement_regions_scan cMR (1/10) 3 ∧
    (detect_movement_regions (detect_movement_regions [] 1 cMR (1/10) 3).2.1
        1 cMR (1/10) 3).1
      = (detect_movement_regions [] 1 cMR (1/10) 3).1 ∧
    (detect_movement_regions (detect_movement_regions [] 1 cMR (1/10) 3).2.1
        1 cMR (1/10) 3).2.2 = 0 :=
  cache_correctness [] 1 cMR (1/10) 3 (by simp [cMR]) rfl

/-- C10: a curve with no keyframes makes detect_movement_regions return
[] immediately, with the cache untouched and the scan never run,
whatever the threshold and minimum duration. -/
theorem empty_curve_short_circuit (cache : AnalysisCache) (curve_id : Nat) (c : Curve)
    (vt : ℚ) (md : Int) (h : c.keyframe_points = []) :
    detect_movement_regions cache curve_id c vt md = ([], cache, 0) := by
  simp [detect_movement_regions, h]

/-- Witness for C10 at a concrete keyframe-less curve. -/
theorem empty_curve_short_circuit_witness :
    detect_movement_regions [] 5 cNoKF (1/10) 3 = ([], [], 0) :=
  empty_curve_short_circuit [] 5 cNoKF (1/10) 3 rfl

/-- C4 counterexample: the z curve cz4 produces the single hysteresis
candidate phase (6, 8), which spans exactly 3 frames, yet
detect_contact_phases returns the empty list: the filter end - start >= 3
keeps only phases of 4 or more frames, so a 3-frame candidate is
discarded, against the claim that it is returned. -/
theorem contact_phase_filter_counterexample :
    contactCandidates cz4 (1/20) (1/50) = [(6, 8)] ∧
    (8 : Int) - 6 + 1 = 3 ∧
    detect_contact_phases [cx4, cy4, cz4] (1/20) (1/50) = [] := by
  refine ⟨?_, by norm_num, ?_⟩
  · norm_num +decide [contactCandidates, cz4, cpStep, calculate_velocity, Curve.evaluate,
      pyInt, intRange, intRangeAux, sortAsc, insertAsc, List.getD, abs_lt, lt_abs]
  · norm_num +decide [detect_contact_phases, findZCurve, pathEndsWith, contactCandidates,
      cx4, cy4, cz4, cpStep, calculate_velocity, Curve.evaluate, pyInt, intRange,
      intRangeAux, sortAsc, insertAsc, List.getD, abs_lt, lt_abs]

/-- C4 (amended): detect_contact_phases discards exactly the candidate
phases with end - start < 3: every returned phase satisfies
end - start + 1 >= 4, and every hysteresis candidate with
end - start >= 3 (a span of at least 4 frames) is returned. -/
theorem contact_phase_duration_filter (fcurves : List Curve) (gt st : ℚ) (z : Curve)
    (hlen : ¬ fcurves.length < 3) (hz : findZCurve fcurves = some z) :
    detect_contact_phases fcurves gt st
      = (contactCandidates z gt st).filter (fun p => 3 ≤ p.2 - p.1) ∧
    (∀ p ∈ detect_contact_phases fcurves gt st, 4 ≤ p.2 - p.1 + 1) ∧
    (∀ p ∈ contactCandidates z gt st, 3 ≤ p.2 - p.1 →
        p ∈ detect_contact_phases fcurves gt st) := by
  have h1 : detect_contact_phases fcurves gt st
      = (contactCandidates z gt st).filter (fun p => 3 ≤ p.2 - p.1) := by
    simp only [detect_contact_phases, hz]
    rw [if_neg hlen]
  refine ⟨h1, ?_, ?_⟩
  · intro p hp
    rw [h1, List.mem_filter] at hp
    have h3 : 3 ≤ p.2 - p.1 := by simpa using hp.2
    omega
  · intro p hp h3
    rw [h1]
    exact List.mem_filter.mpr ⟨hp, by simpa using h3⟩

/-- Witness for the amended C4 at the concrete curve triple. -/
theorem contact_phase_duration_filter_witness :
    detect_contact_phases [cx4, cy4, cz4] (1/20) (1/50)
      = (contactCandidates cz4 (1/20) (1/50)).filter (fun p => 3 ≤ p.2 - p.1) ∧
    (∀ p ∈ detect_contact_phases [cx4, cy4, cz4] (1/20) (1/50), 4 ≤ p.2 - p.1 + 1) ∧
    (∀ p ∈ contactCandidates cz4 (1/20) (1/50), 3 ≤ p.2 - p.1 →
        p ∈ detect_contact_phases [cx4, cy4, cz4] (1/20) (1/50)) :=
  contact_phase_duration_filter [cx4, cy4, cz4] (1/20) (1/50) cz4 (by simp) rfl

theorem mrStep_inv (c : Curve) (vt : ℚ) (md : Int) (a : Int) (st : MRState)
    (h : MRInv a st) : MRInv (a + 1) (mrStep c vt md st a) := by
  obtain ⟨regs, os, mE, smp, av⟩ := st
  obtain ⟨hpw, hsome, hnone⟩ := h
  cases os with
  | none =>
    have hend : ∀ r ∈ regs, r.end_frame < a := hnone rfl
    unfold mrStep
    dsimp only
    split
    · refine ⟨hpw, ?_, ?_⟩
      · intro s hs
        replace hs : a = s := by simpa using hs
        subst hs
        exact ⟨hend, by omega⟩
      · intro hcon
        simp at hcon
    · refine ⟨hpw, ?_, ?_⟩
      · intro s hs
        simp at hs
      · intro _ r hr
        have := hend r hr
        omega
  | some s =>
    obtain ⟨hends, hsle⟩ := hsome s rfl
    unfold mrStep
    dsimp only
    split
    · refine ⟨hpw, ?_, ?_⟩
      · intro s2 hs2
        replace hs2 : s = s2 := by simpa using hs2
        subst hs2
        exact ⟨hends, by omega⟩
      · intro hcon
        simp at hcon
    · split
      · refine ⟨?_, ?_, ?_⟩
        · refine List.pairwise_append.mpr ⟨hpw, List.pairwise_singleton _ _, ?_⟩
          intro r1 hr1 r2 hr2
          rw [List.mem_singleton] at hr2
          subst hr2
          exact hends r1 hr1
        · intro s2 hs2
          simp at hs2
        · intro _ r hr
          simp only [List.mem_append, List.mem_singleton] at hr
          rcases hr with hr | hr
          · have := hends r hr
            omega
          · subst hr
            show a - 1 < a + 1
            omega
      · refine ⟨hpw, ?_, ?_⟩
        · intro s2 hs2
          simp at hs2
        · intro _ r hr
          have := hends r hr
          omega

theorem mrFold_inv (c : Curve) (vt : ℚ) (md : Int) (n : Nat) :
    ∀ (a : Int) (st : MRState), MRInv a st →
      MRInv (a + n) ((intRangeAux a n).foldl (mrStep c vt md) st) := by
  induction n with
  | zero => intro a st h; simpa using h
  | succ n ih =>
    intro a st h
    simp only [intRangeAux, List.foldl_cons]
    have hcast : (a + ((n : Nat) + 1 : Nat) : Int) = (a + 1) + (n : Nat) := by
      push_cast; ring
    rw [hcast]
    exact ih (a + 1) (mrStep c vt md st a) (mrStep_inv c vt md a st h)

theorem scan_regions_separated (c : Curve) (vt : ℚ) (md : Int) :
    RegionsSeparated (detect_movement_regions_scan c vt md) := by
  have hinit : MRInv (pyInt c.range.1) ⟨[], none, 0, [], 0⟩ := by
    refine ⟨List.Pairwise.nil, ?_, ?_⟩
    · intro s hs
      simp at hs
    · intro _ r hr
      simp at hr
  have hinv := mrFold_inv c vt md (pyInt c.range.2 + 1 - pyInt c.range.1).toNat
    (pyInt c.range.1) ⟨[], none, 0, [], 0⟩ hinit
  obtain ⟨hpw, hsome, _⟩ := hinv
  unfold detect_movement_regions_scan
  dsimp only
  rw [intRange]
  cases hos : (List.foldl (mrStep c vt md) ⟨[], none, 0, [], 0⟩
      (intRangeAux (pyInt c.range.1)
        (pyInt c.range.2 + 1 - pyInt c.range.1).toNat)).openStart with
  | none =>
    simp only [hos]
    exact hpw
  | some s =>
    obtain ⟨hends, _⟩ := hsome s hos
    simp only [hos]
    split
    · refine List.pairwise_append.mpr ⟨hpw, List.pairwise_singleton _ _, ?_⟩
      intro r1 hr1 r2 hr2
      rw [List.mem_singleton] at hr2
      subst hr2
      exact hends r1 hr1
    · exact hpw

theorem velocity_weight_in_region (f : Int) (regions : List MRegion) (ep : ℚ)
    (hsep : RegionsSeparated regions) (r : MRegion) (hr : r ∈ regions)
    (h1 : r.start_frame ≤ f) (h2 : f ≤ r.end_frame) :
    _calculate_velocity_weight f regions ep
      = min 1 (max (1/10) (min 1 (r.peak_energy / 2) * typeMultiplier r.motion_type * ep)) := by
  induction regions with
  | nil => cases hr
  | cons hd tl ih =>
    rw [RegionsSeparated, List.pairwise_cons] at hsep
    obtain ⟨hhd, htl⟩ := hsep
    rw [List.mem_cons] at hr
    rcases hr with hr | hr
    · subst hr
      simp only [_calculate_velocity_weight]
      rw [if_pos ⟨h1, h2⟩]
    · have hsep2 : hd.end_frame < r.start_frame := hhd r hr
      simp only [_calculate_velocity_weight]
      rw [if_neg (by intro hc; omega)]
      exact ih htl hr

theorem velocity_weight_outside (f : Int) (regions : List MRegion) (ep : ℚ)
    (h : ∀ r ∈ regions, ¬(r.start_frame ≤ f ∧ f ≤ r.end_frame)) :
    _calculate_velocity_weight f regions ep = 1/20 := by
  induction regions with
  | nil => rfl
  | cons hd tl ih =>
    simp only [_calculate_velocity_weight]
    rw [if_neg (h hd (by simp))]
    exact ih (fun r hr => h r (List.mem_cons_of_mem hd hr))

/-- C5: for every frame f of the blended range, apply_velocity_aware_blend
maps f to base(f) + (adjustment(f) - base(f)) * weight * mask * influence,
where the contact mask multiplies the weight by 0.1 exactly when f is in
contact_frames; the weight of a frame inside some movement region of the
base curve's scan is clamp(min(1, peak_energy/2) * motion-type multiplier
* energy_preservation, 0.1, 1.0) with multipliers FAST 1.2, SUSTAINED 1.0,
QUICK 0.9, SMOOTH 0.8, SLOW 0.6 (the scan's regions are pairwise
separated, so the containing region is unique), and the weight of a frame
outside every region is 0.05. -/
theorem velocity_aware_blend_formula (base adj : Curve) (influence ep : ℚ)
    (contact_frames : List Int) (f : Int)
    (h1 : pyInt (min base.range.1 adj.range.1) ≤ f)
    (h2 : f ≤ pyInt (max base.range.2 adj.range.2)) :
    (∃ m, apply_velocity_aware_blend (some base) (some adj) influence ep contact_frames
        = some m ∧
      mapLookup m f = some (base.evalVal (f : ℚ)
        + (adj.evalVal (f : ℚ) - base.evalVal (f : ℚ))
          * _calculate_velocity_weight f (detect_movement_regions_scan base (1/10) 3) ep
          * (if contact_frames ≠ [] ∧ f ∈ contact_frames then (1/10 : ℚ) else 1)
          * influence)) ∧
    (∀ r ∈ detect_movement_regions_scan base (1/10) 3,
        r.start_frame ≤ f → f ≤ r.end_frame →
        _calculate_velocity_weight f (detect_movement_regions_scan base (1/10) 3) ep
          = min 1 (max (1/10)
              (min 1 (r.peak_energy / 2) * typeMultiplier r.motion_type * ep))) ∧
    ((∀ r ∈ detect_movement_regions_scan base (1/10) 3,
        ¬(r.start_frame ≤ f ∧ f ≤ r.end_frame)) →
      _calculate_velocity_weight f (detect_movement_regions_scan base (1/10) 3) ep
        = 1/20) := by
  refine ⟨?_, ?_, ?_⟩
  · refine ⟨(intRange (pyInt (min base.range.1 adj.range.1))
        (pyInt (max base.range.2 adj.range.2))).map
      (fun frame => (frame,
        base.evalVal (frame : ℚ) + (adj.evalVal (frame : ℚ) - base.evalVal (frame : ℚ))
          * _calculate_velocity_weight frame (detect_movement_regions_scan base (1/10) 3) ep
          * (if contact_frames ≠ [] ∧ frame ∈ contact_frames then (1/10 : ℚ) else 1)
          * influence)), rfl, ?_⟩
    exact mapLookup_intRange
      (fun frame => base.evalVal (frame : ℚ)
        + (adj.evalVal (frame : ℚ) - base.evalVal (frame : ℚ))
          * _calculate_velocity_weight frame (detect_movement_regions_scan base (1/10) 3) ep
          * (if contact_frames ≠ [] ∧ frame ∈ contact_frames then (1/10 : ℚ) else 1)
          * influence)
      _ _ f h1 h2
  · intro r hr hs he
    exact velocity_weight_in_region f _ ep (scan_regions_separated base (1/10) 3) r hr hs he
  · intro h
    exact velocity_weight_outside f _ ep h

/-- Witness for C5 at a concrete curve pair and frame. -/
theorem velocity_aware_blend_formula_witness :
    (∃ m, apply_velocity_aware_blend (some cMR) (some cMR) 1 (4/5) []
        = some m ∧
      mapLookup m 0 = some (cMR.evalVal (0 : ℚ)
        + (cMR.evalVal (0 : ℚ) - cMR.evalVal (0 : ℚ))
          * _calculate_velocity_weight 0 (detect_movement_regions_scan cMR (1/10) 3) (4/5)
          * (if ([] : List Int) ≠ [] ∧ (0 : Int) ∈ ([] : List Int) then (1/10 : ℚ) else 1)
          * 1)) ∧
    (∀ r ∈ detect_movement_regions_scan cMR (1/10) 3,
        r.start_frame ≤ 0 → 0 ≤ r.end_frame →
        _calculate_velocity_weight 0 (detect_movement_regions_scan cMR (1/10) 3) (4/5)
          = min 1 (max (1/10)
              (min 1 (r.peak_energy / 2) * typeMultiplier r.motion_type * (4/5)))) ∧
    ((∀ r ∈ detect_movement_regions_scan cMR (1/10) 3,
        ¬(r.start_frame ≤ 0 ∧ 0 ≤ r.end_frame)) →
      _calculate_velocity_weight 0 (detect_movement_regions_scan cMR (1/10) 3) (4/5)
        = 1/20) :=
  velocity_aware_blend_formula cMR cMR 1 (4/5) [] 0
    (by norm_num [cMR, pyInt]) (by norm_num [cMR, pyInt])

theorem int_cast_abs_lt_one {m : Int} (h : |(m : ℚ)| < 1) : m = 0 := by
  by_contra hne
  have h1 : (1 : ℤ) ≤ |m| := Int.one_le_abs (by omega)
  have h2 : (1 : ℚ) ≤ |(m : ℚ)| := by
    rw [← Int.cast_abs]
    exact_mod_cast h1
  linarith

theorem int_frames_far {g f : Int} (h : g ≠ f) : ¬(|(g : ℚ) - (f : ℚ)| < 1/2) := by
  intro hlt
  have he : ((g - f : Int) : ℚ) = (g : ℚ) - (f : ℚ) := by push_cast; ring
  have h2 : |((g - f : Int) : ℚ)| < 1 := by
    rw [he]
    linarith
  have := int_cast_abs_lt_one h2
  omega

theorem near_both_eq {x : ℚ} {g f : Int} (hg : |x - (g : ℚ)| < 1/2)
    (hf : |x - (f : ℚ)| < 1/2) : g = f := by
  have habs : |((g - f : Int) : ℚ)| < 1 := by
    have he : ((g - f : Int) : ℚ) = -(x - (g : ℚ)) + (x - (f : ℚ)) := by push_cast; ring
    rw [he]
    calc |(-(x - (g : ℚ)) + (x - (f : ℚ)))|
        ≤ |(-(x - (g : ℚ)))| + |x - (f : ℚ)| := abs_add _ _
      _ = |x - (g : ℚ)| + |x - (f : ℚ)| := by rw [abs_neg]
      _ < 1 := by linarith
  have := int_cast_abs_lt_one habs
  omega

theorem replace_read_same (kfs : List (ℚ × ℚ)) (g : Int) (v : ℚ)
    (h : kfs.any (fun kf => |kf.1 - (g : ℚ)| < 1/2) = true) :
    findKF (g : ℚ) (replaceFirstKF (g : ℚ) v kfs) = some v := by
  induction kfs with
  | nil => simp at h
  | cons kf rest ih =>
    by_cases hm : |kf.1 - (g : ℚ)| < 1/2
    · simp only [replaceFirstKF, if_pos hm, findKF]
    · simp only [replaceFirstKF, if_neg hm, findKF]
      refine ih ?_
      simp only [List.any_cons, Bool.or_eq_true] at h
      rcases h with h | h
      · exact absurd (of_decide_eq_true h) hm
      · exact h

theorem insert_read_same (kfs : List (ℚ × ℚ)) (g : Int) (v : ℚ)
    (h : kfs.any (fun kf => |kf.1 - (g : ℚ)| < 1/2) = false) :
    findKF (g : ℚ) (insertSortedKF (g : ℚ) v kfs) = some v := by
  induction kfs with
  | nil =>
    simp only [insertSortedKF, findKF]
    rw [if_pos (by norm_num)]
  | cons kf rest ih =>
    simp only [List.any_cons, Bool.or_eq_false_iff, decide_eq_false_iff_not] at h
    simp only [insertSortedKF]
    split
    · simp only [findKF]
      rw [if_pos (by norm_num)]
    · simp only [findKF]
      rw [if_neg h.1]
      exact ih (by simpa using h.2)

theorem replace_read_other (kfs : List (ℚ × ℚ)) (g f : Int) (v : ℚ) (hne : g ≠ f) :
    findKF (f : ℚ) (replaceFirstKF (g : ℚ) v kfs) = findKF (f : ℚ) kfs := by
  induction kfs with
  | nil => rfl
  | cons kf rest ih =>
    by_cases hm : |kf.1 - (g : ℚ)| < 1/2
    · simp only [replaceFirstKF, if_pos hm, findKF]
      have hnf : ¬(|kf.1 - (f : ℚ)| < 1/2) := fun hf => hne (near_both_eq hm hf)
      rw [if_neg hnf, if_neg hnf]
    · simp only [replaceFirstKF, if_neg hm, findKF]
      by_cases hf : |kf.1 - (f : ℚ)| < 1/2
      · rw [if_pos hf, if_pos hf]
      · rw [if_neg hf, if_neg hf]
        exact ih

theorem insert_read_other (kfs : List (ℚ × ℚ)) (g f : Int) (v : ℚ) (hne : g ≠ f) :
    findKF (f : ℚ) (insertSortedKF (g : ℚ) v kfs) = findKF (f : ℚ) kfs := by
  induction kfs with
  | nil =>
    simp only [insertSortedKF, findKF]
    rw [if_neg (int_frames_far hne)]
  | cons kf rest ih =>
    simp only [insertSortedKF]
    split
    · simp only [findKF]
      rw [if_neg (int_frames_far hne)]
    · simp only [findKF]
      by_cases hf : |kf.1 - (f : ℚ)| < 1/2
      · rw [if_pos hf, if_pos hf]
      · rw [if_neg hf, if_neg hf]
        exact ih

theorem apply_keyframe_fix_read (c : Curve) (g : Int) (t i : ℚ) :
    kfValueAt (_apply_keyframe_fix c (g : ℚ) t i) (g : ℚ)
      = some (lerp (c.evalVal (g : ℚ)) t i) := by
  unfold _apply_keyframe_fix kfValueAt
  dsimp only
  split
  · exact replace_read_same c.keyframe_points g _ (by assumption)
  · exact insert_read_same c.keyframe_points g _ (by simpa using (by assumption :
      ¬c.keyframe_points.any (fun kf => |kf.1 - (g : ℚ)| < 1/2) = true))

theorem apply_keyframe_fix_read_other (c : Curve) (g f : Int) (t i : ℚ) (hne : g ≠ f) :
    kfValueAt (_apply_keyframe_fix c (g : ℚ) t i) (f : ℚ) = kfValueAt c (f : ℚ) := by
  unfold _apply_keyframe_fix kfValueAt
  dsimp only
  split
  · exact replace_read_other c.keyframe_points g f _ hne
  · exact insert_read_other c.keyframe_points g f _ hne

theorem apply_keyframe_fix_evalVal (c : Curve) (g t i : ℚ) :
    (_apply_keyframe_fix c g t i).evalVal = c.evalVal := by
  unfold _apply_keyframe_fix
  dsimp only
  split <;> rfl

theorem foldl_fix_evalVal (t : ℚ) (gi : Int → ℚ) :
    ∀ (l : List Int) (c : Curve),
      (l.foldl (fun c2 (fr : Int) => _apply_keyframe_fix c2 (fr : ℚ) t (gi fr)) c).evalVal
        = c.evalVal := by
  intro l
  induction l with
  | nil => intro c; rfl
  | cons hd tl ih =>
    intro c
    simp only [List.foldl_cons]
    rw [ih, apply_keyframe_fix_evalVal]

theorem foldl_fix_read_other (t : ℚ) (gi : Int → ℚ) :
    ∀ (l : List Int) (c : Curve) (f : Int), (∀ x ∈ l, x ≠ f) →
      kfValueAt (l.foldl (fun c2 (fr : Int) => _apply_keyframe_fix c2 (fr : ℚ) t (gi fr)) c) (f : ℚ)
        = kfValueAt c (f : ℚ) := by
  intro l
  induction l with
  | nil => intro c f _; rfl
  | cons hd tl ih =>
    intro c f h
    simp only [List.foldl_cons]
    rw [ih _ f (fun x hx => h x (List.mem_cons_of_mem hd hx))]
    exact apply_keyframe_fix_read_other c hd f t (gi hd) (h hd (List.mem_cons_self hd tl))

theorem foldl_fix_read (t : ℚ) (gi : Int → ℚ) :
    ∀ (l : List Int), List.Pairwise (· < ·) l → ∀ (c : Curve) (f : Int), f ∈ l →
      kfValueAt (l.foldl (fun c2 (fr : Int) => _apply_keyframe_fix c2 (fr : ℚ) t (gi fr)) c) (f : ℚ)
        = some (lerp (c.evalVal (f : ℚ)) t (gi f)) := by
  intro l
  induction l with
  | nil => intro _ c f hf; cases hf
  | cons hd tl ih =>
    intro hpw c f hf
    rw [List.pairwise_cons] at hpw
    simp only [List.foldl_cons]
    rcases List.mem_cons.mp hf with hf | hf
    · subst hf
      rw [foldl_fix_read_other t gi tl _ f (fun x hx => by have := hpw.1 x hx; omega)]
      exact apply_keyframe_fix_read c f t (gi f)
    · have hr := ih hpw.2 (_apply_keyframe_fix c (hd : ℚ) t (gi hd)) f hf
      rw [apply_keyframe_fix_evalVal] at hr
      exact hr

theorem intRangeAux_pairwise : ∀ (n : Nat) (a : Int),
    List.Pairwise (· < ·) (intRangeAux a n) := by
  intro n
  induction n with
  | zero => intro a; exact List.Pairwise.nil
  | succ n ih =>
    intro a
    refine List.pairwise_cons.mpr ⟨?_, ih (a + 1)⟩
    intro x hx
    have := intRangeAux_mem.mp hx
    omega

theorem fix_phase_curve_read (c : Curve) (s e : Int) (infl : ℚ) (pf : Bool) (f : Int)
    (h1 : s ≤ f) (h2 : f ≤ e) :
    kfValueAt (_fix_contact_phase_curve c s e infl pf) (f : ℚ)
      = some (lerp (c.evalVal (f : ℚ)) (stable_position c s e pf)
          (graduated_influence infl s e f)) := by
  unfold _fix_contact_phase_curve
  dsimp only
  apply foldl_fix_read (stable_position c s e pf)
    (fun fr => graduated_influence infl s e fr)
  · rw [intRange]
    exact intRangeAux_pairwise _ _
  · rw [intRange]
    apply intRangeAux_mem.mpr
    omega

theorem fix_phase_curve_read_other (c : Curve) (s e : Int) (infl : ℚ) (pf : Bool)
    (f : Int) (h : f < s ∨ e < f) :
    kfValueAt (_fix_contact_phase_curve c s e infl pf) (f : ℚ) = kfValueAt c (f : ℚ) := by
  unfold _fix_contact_phase_curve
  dsimp only
  apply foldl_fix_read_other
  intro x hx
  rw [intRange] at hx
  have := intRangeAux_mem.mp hx
  omega

theorem fix_phase_curve_evalVal (c : Curve) (s e : Int) (infl : ℚ) (pf : Bool) :
    (_fix_contact_phase_curve c s e infl pf).evalVal = c.evalVal := by
  unfold _fix_contact_phase_curve
  dsimp only
  exact foldl_fix_evalVal _ _ _ c

theorem stable_position_evalVal_congr (c1 c2 : Curve) (s e : Int) (pf : Bool)
    (h : c1.evalVal = c2.evalVal) :
    stable_position c1 s e pf = stable_position c2 s e pf := by
  unfold stable_position
  rw [h]

theorem fixPhases_read_other : ∀ (phases : List (Int × Int)) (c : Curve) (infl : ℚ)
    (pf : Bool) (f : Int), (∀ p ∈ phases, f < p.1 ∨ p.2 < f) →
    kfValueAt (fixPhasesCurve phases c infl pf) (f : ℚ) = kfValueAt c (f : ℚ) := by
  intro phases
  induction phases with
  | nil => intro c _ _ f _; rfl
  | cons p rest ih =>
    intro c infl pf f h
    rw [fixPhasesCurve, List.foldl_cons]
    show kfValueAt
      (fixPhasesCurve rest (_fix_contact_phase_curve c p.1 p.2 infl pf) infl pf) (f : ℚ) = _
    rw [ih _ infl pf f (fun q hq => h q (List.mem_cons_of_mem p hq))]
    exact fix_phase_curve_read_other c p.1 p.2 infl pf f (h p (List.mem_cons_self p rest))

theorem fixPhases_read : ∀ (phases : List (Int × Int)) (c : Curve) (infl : ℚ) (pf : Bool)
    (s e f : Int), (s, e) ∈ phases → s ≤ f → f ≤ e → PhasesSeparated phases →
    kfValueAt (fixPhasesCurve phases c infl pf) (f : ℚ)
      = some (lerp (c.evalVal (f : ℚ)) (stable_position c s e pf)
          (graduated_influence infl s e f)) := by
  intro phases
  induction phases with
  | nil => intro c infl pf s e f hmem; cases hmem
  | cons p rest ih =>
    intro c infl pf s e f hmem hf1 hf2 hsep
    rw [PhasesSeparated, List.pairwise_cons] at hsep
    rw [fixPhasesCurve, List.foldl_cons]
    rcases List.mem_cons.mp hmem with hm | hm
    · have hp : p = (s, e) := hm.symm
      subst hp
      show kfValueAt
        (fixPhasesCurve rest (_fix_contact_phase_curve c s e infl pf) infl pf) (f : ℚ) = _
      rw [fixPhases_read_other rest _ infl pf f
        (fun q hq => by have := hsep.1 q hq; dsimp only at this; omega)]
      exact fix_phase_curve_read c s e infl pf f hf1 hf2
    · show kfValueAt
        (fixPhasesCurve rest (_fix_contact_phase_curve c p.1 p.2 infl pf) infl pf) (f : ℚ) = _
      rw [ih (_fix_contact_phase_curve c p.1 p.2 infl pf) infl pf s e f hm hf1 hf2 hsep.2]
      rw [stable_position_evalVal_congr _ c s e pf (fix_phase_curve_evalVal c p.1 p.2 infl pf)]
      rw [fix_phase_curve_evalVal]

theorem groupAux_props : ∀ (l : List Int) (s0 e0 : Int), s0 ≤ e0 →
    (∀ x ∈ l, e0 < x) → List.Pairwise (· < ·) l →
    (∀ p ∈ groupAux s0 e0 l, s0 ≤ p.1 ∧ p.1 ≤ p.2) ∧
    PhasesSeparated (groupAux s0 e0 l) := by
  intro l
  induction l with
  | nil =>
    intro s0 e0 h0 _ _
    constructor
    · intro p hp
      simp only [groupAux, List.mem_singleton] at hp
      subst hp
      exact ⟨le_refl s0, h0⟩
    · simp only [groupAux]
      exact List.pairwise_singleton _ _
  | cons fr rest ih =>
    intro s0 e0 h0 hgt hpw
    rw [List.pairwise_cons] at hpw
    have hfr0 : e0 < fr := hgt fr (List.mem_cons_self fr rest)
    simp only [groupAux]
    by_cases hc : fr = e0 + 1
    · rw [if_pos hc]
      exact ih s0 fr (by omega) (fun x hx => hpw.1 x hx) hpw.2
    · rw [if_neg hc]
      have hfr : e0 + 1 < fr := by omega
      obtain ⟨ihp, ihsep⟩ := ih fr fr (le_refl fr) (fun x hx => hpw.1 x hx) hpw.2
      constructor
      · intro p hp
        rcases List.mem_cons.mp hp with hp | hp
        · subst hp
          exact ⟨le_refl s0, h0⟩
        · have h2 := ihp p hp
          exact ⟨by omega, h2.2⟩
      · refine List.pairwise_cons.mpr ⟨?_, ihsep⟩
        intro q hq
        have h2 := (ihp q hq).1
        dsimp only
        omega

theorem group_sliding_props (l : List Int) (hpw : List.Pairwise (· < ·) l) :
    (∀ p ∈ _group_sliding_frames l, p.1 ≤ p.2) ∧
    PhasesSeparated (_group_sliding_frames l) := by
  cases l with
  | nil =>
    refine ⟨?_, ?_⟩
    · intro p hp
      simp [_group_sliding_frames] at hp
    · exact List.Pairwise.nil
  | cons fr rest =>
    rw [List.pairwise_cons] at hpw
    simp only [_group_sliding_frames]
    have h2 := groupAux_props rest fr fr (le_refl fr) hpw.1 hpw.2
    exact ⟨fun p hp => (h2.1 p hp).2, h2.2⟩

theorem graduated_influence_edges (infl : ℚ) (s e : Int) (h : s ≤ e) :
    graduated_influence infl s e s
      = infl * (1 - (((e : ℚ) - s) / ((e : ℚ) - s + 1)) * (1/2)) ∧
    graduated_influence infl s e e
      = infl * (1 - (((e : ℚ) - s) / ((e : ℚ) - s + 1)) * (1/2)) ∧
    ((s + e) % 2 = 0 → graduated_influence infl s e ((s + e) / 2) = infl) := by
  have hD : (0 : ℚ) ≤ (e : ℚ) - s := by
    have : (s : ℚ) ≤ (e : ℚ) := by exact_mod_cast h
    linarith
  have hpos : (0 : ℚ) < ((e - s + 1 : Int) : ℚ) / 2 := by
    have h1 : (1 : ℤ) ≤ e - s + 1 := by omega
    have h2 : (1 : ℚ) ≤ ((e - s + 1 : Int) : ℚ) := by exact_mod_cast h1
    linarith
  have hcast : ((e - s + 1 : Int) : ℚ) = (e : ℚ) - s + 1 := by push_cast; ring
  have hne : (e : ℚ) - s + 1 ≠ 0 := by linarith
  have hdiv : ((e : ℚ) - s) / 2 / (((e : ℚ) - s + 1) / 2) = ((e : ℚ) - s) / ((e : ℚ) - s + 1) := by
    rw [div_div_div_comm]
    norm_num
  refine ⟨?_, ?_, ?_⟩
  · unfold graduated_influence
    dsimp only
    rw [if_pos hpos, hcast]
    have habs : |(s : ℚ) - ((s : ℚ) + (e : ℚ)) / 2| = ((e : ℚ) - s) / 2 := by
      rw [abs_of_nonpos (by linarith)]
      ring
    rw [habs, hdiv]
  · unfold graduated_influence
    dsimp only
    rw [if_pos hpos, hcast]
    have habs : |(e : ℚ) - ((s : ℚ) + (e : ℚ)) / 2| = ((e : ℚ) - s) / 2 := by
      rw [abs_of_nonneg (by linarith)]
      ring
    rw [habs, hdiv]
  · intro hev
    unfold graduated_influence
    dsimp only
    rw [if_pos hpos]
    have hdvd : (2 : ℤ) ∣ (s + e) := Int.dvd_of_emod_eq_zero hev
    have hmul : (((s + e) / 2 : Int) : ℚ) * 2 = (s : ℚ) + e := by
      have h2 : ((s + e) / 2 * 2 : Int) = s + e := Int.ediv_mul_cancel hdvd
      calc (((s + e) / 2 : Int) : ℚ) * 2 = (((s + e) / 2 * 2 : Int) : ℚ) := by push_cast; ring
        _ = ((s + e : Int) : ℚ) := by rw [h2]
        _ = (s : ℚ) + e := by push_cast; ring
    have habs : |(((s + e) / 2 : Int) : ℚ) - ((s : ℚ) + (e : ℚ)) / 2| = 0 := by
      rw [abs_eq_zero]
      linarith
    rw [habs]
    rw [zero_div]
    ring

/-- C7 counterexample: for the 3-frame phase 0..2 at influence 1 with
preserve_motion_flow, the fixed curve's keyframe at the phase edge frame
0 holds lerp(0, 1, 2/3) = 2/3 (graduated influence 2/3), not the
lerp(0, 1, 0.5) = 1/2 that an edge influence of 0.5 x influence would
give: the edge influence is influence*(1 - 0.5*(dur-1)/dur), not
0.5*influence. -/
theorem foot_sliding_edge_counterexample :
    ((fix_foot_sliding_professional [cKF7] [0, 1, 2] 1 true).2.head?).map
        (fun c => kfValueAt c 0) = some (some (2/3)) ∧
    lerp (cKF7.evalVal 0) (stable_position cKF7 0 2 true) ((1/2) * 1) = 1/2 ∧
    (2/3 : ℚ) ≠ 1/2 := by
  refine ⟨?_, ?_, by norm_num⟩
  · norm_num +decide [fix_foot_sliding_professional, _group_sliding_frames, groupAux,
      fixPhasesCurve, _fix_contact_phase_curve, stable_position, graduated_influence,
      _apply_keyframe_fix, replaceFirstKF, insertSortedKF, kfValueAt, findKF, lerp, cKF7,
      isHorizontal, pathEndsWith, intRange, intRangeAux, sortAsc, insertAsc, List.getD,
      abs_lt, lt_abs]
  · norm_num +decide [stable_position, cKF7, lerp, intRange, intRangeAux, sortAsc,
      insertAsc, List.getD]

/-- C7 (amended): for each maximal run (s, e) of the strictly increasing
sliding-frame list, fix_foot_sliding succeeds and maps every horizontal
curve through the phase fixes; the keyframe written at every frame f of
the run holds lerp(current value, stable target, frame influence), the
stable target being the (upper) median of the in-phase samples under
preserve_motion_flow and their mean otherwise, and the graduated
frame influence follows influence*(1 - 0.5*distance/half_duration): it
peaks at exactly influence at the phase's temporal center and falls
linearly to influence*(1 - 0.5*(e-s)/(e-s+1)) at both edges — strictly
above 0.5*influence, approaching it only for long phases. -/
theorem foot_sliding_fix_formula (foot : List Curve) (sliding : List Int) (infl : ℚ)
    (pmf : Bool) (c : Curve) (s e f : Int)
    (hsl : List.Pairwise (· < ·) sliding)
    (hc : c ∈ foot) (hhor : isHorizontal c = true)
    (hmem : (s, e) ∈ _group_sliding_frames sliding)
    (hf1 : s ≤ f) (hf2 : f ≤ e) :
    (fix_foot_sliding_professional foot sliding infl pmf).1 = true ∧
    (fix_foot_sliding_professional foot sliding infl pmf).2
      = foot.map (fun c0 => if isHorizontal c0 then
          fixPhasesCurve (_group_sliding_frames sliding) c0 infl pmf else c0) ∧
    kfValueAt (fixPhasesCurve (_group_sliding_frames sliding) c infl pmf) (f : ℚ)
      = some (lerp (c.evalVal (f : ℚ)) (stable_position c s e pmf)
          (graduated_influence infl s e f)) ∧
    graduated_influence infl s e s
      = infl * (1 - (((e : ℚ) - s) / ((e : ℚ) - s + 1)) * (1/2)) ∧
    graduated_influence infl s e e
      = infl * (1 - (((e : ℚ) - s) / ((e : ℚ) - s + 1)) * (1/2)) ∧
    ((s + e) % 2 = 0 → graduated_influence infl s e ((s + e) / 2) = infl) := by
  have hfoot : foot.isEmpty = false := by
    cases foot
    · cases hc
    · rfl
  have hslid : sliding.isEmpty = false := by
    cases sliding
    · simp [_group_sliding_frames] at hmem
    · rfl
  have hfilter : (foot.filter isHorizontal).isEmpty = false := by
    have hcf : c ∈ foot.filter isHorizontal := List.mem_filter.mpr ⟨hc, hhor⟩
    cases hfil : foot.filter isHorizontal
    · rw [hfil] at hcf; cases hcf
    · rfl
  have hmain : fix_foot_sliding_professional foot sliding infl pmf
      = (true, foot.map (fun c0 => if isHorizontal c0 then
          fixPhasesCurve (_group_sliding_frames sliding) c0 infl pmf else c0)) := by
    simp [fix_foot_sliding_professional, hfoot, hslid, hfilter]
  refine ⟨by rw [hmain], by rw [hmain], ?_, ?_, ?_, ?_⟩
  · exact fixPhases_read _ c infl pmf s e f hmem hf1 hf2 (group_sliding_props sliding hsl).2
  · exact (graduated_influence_edges infl s e (hf1.trans hf2)).1
  · exact (graduated_influence_edges infl s e (hf1.trans hf2)).2.1
  · exact (graduated_influence_edges infl s e (hf1.trans hf2)).2.2

/-- Witness for the amended C7 at the concrete jittery curve. -/
theorem foot_sliding_fix_formula_witness :
    (fix_foot_sliding_professional [cKF7] [0, 1, 2] 1 true).1 = true ∧
    (fix_foot_sliding_professional [cKF7] [0, 1, 2] 1 true).2
      = [cKF7].map (fun c0 => if isHorizontal c0 then
          fixPhasesCurve (_group_sliding_frames [0, 1, 2]) c0 1 true else c0) ∧
    kfValueAt (fixPhasesCurve (_group_sliding_frames [0, 1, 2]) cKF7 1 true) ((1 : Int) : ℚ)
      = some (lerp (cKF7.evalVal ((1 : Int) : ℚ)) (stable_position cKF7 0 2 true)
          (graduated_influence 1 0 2 1)) ∧
    graduated_influence 1 0 2 0
      = 1 * (1 - ((((2 : Int) : ℚ) - (0 : Int)) / (((2 : Int) : ℚ) - (0 : Int) + 1)) * (1/2)) ∧
    graduated_influence 1 0 2 2
      = 1 * (1 - ((((2 : Int) : ℚ) - (0 : Int)) / (((2 : Int) : ℚ) - (0 : Int) + 1)) * (1/2)) ∧
    (((0 : Int) + 2) % 2 = 0 → graduated_influence 1 0 2 (((0 : Int) + 2) / 2) = 1) :=
  foot_sliding_fix_formula [cKF7] [0, 1, 2] 1 true cKF7 0 2 1
    (by decide) (by simp) rfl (by decide) (by decide) (by decide)
